import Mathlib

/-!
Verification of the incremental Voronoi-diagram engine of OpenVoronoi
(`src/voronoidiagram.cpp`).  The data model and the routines relevant to the
checked properties are embedded shallowly: the C++ enums for vertex status,
vertex kind, face status and edge type become inductive types, and each
checked routine is translated into an executable Lean function operating on
an explicit record of the graph state it reads.
-/

namespace OVD

/-- Vertex status, from the C++ enum: OUT, UNDECIDED, IN, NEW. -/
inductive VertexStatus
  | OUT
  | UNDECIDED
  | IN
  | NEW
  deriving DecidableEq, Repr

/-- Vertex kind, from the C++ enum: OUTER, NORMAL, POINTSITE, ENDPOINT,
SEPPOINT, APEX, SPLIT. -/
inductive VertexType
  | OUTER
  | NORMAL
  | POINTSITE
  | ENDPOINT
  | SEPPOINT
  | APEX
  | SPLIT
  deriving DecidableEq, Repr

/-- Face status, from the C++ enum: INCIDENT, NONINCIDENT. -/
inductive FaceStatus
  | INCIDENT
  | NONINCIDENT
  deriving DecidableEq, Repr

/-- Half-edge type, from the C++ enum: LINE, OUTEDGE, LINESITE, SEPARATOR,
NULLEDGE. -/
inductive EdgeType
  | LINE
  | OUTEDGE
  | LINESITE
  | SEPARATOR
  | NULLEDGE
  deriving DecidableEq, Repr

/-! ## The augment phase (claim C1)

`VoronoiDiagram::augment_vertex_set` pops vertices from a priority queue and
marks each popped vertex IN or OUT.  The decision reads, for the popped
vertex `v`: the queue key `h` (the `in_circle` value computed when `v` was
pushed), the statuses and kinds of the vertices, the out-edges of `v` with
the face each half-edge bounds, the status of those faces, the ring of each
face, the adjacency test `g.has_edge`, and the new site's `in_region` test.
`AugGraph` records exactly that state. -/

/-- One out-edge of a vertex: its target vertex and the face the half-edge
bounds (`g[e].face`). -/
structure OutEdge where
  target : Nat
  face : Nat
  deriving DecidableEq, Repr

/-- The part of the half-edge graph read by the augment-phase predicates. -/
structure AugGraph where
  vstatus : Nat → VertexStatus
  vtype : Nat → VertexType
  outEdges : Nat → List OutEdge
  faceStatus : Nat → FaceStatus
  faceRing : Nat → List Nat
  hasEdge : Nat → Nat → Bool

/-- Function `VoronoiDiagram::predicate_c4`: true iff `v` has two or more neighbours
(over its out-edges) whose status is IN.  The C++ loop counts IN targets and
returns true as soon as the count reaches 2. -/
def predicate_c4 (g : AugGraph) (v : Nat) : Bool :=
  decide (2 ≤ (g.outEdges v).countP (fun e => g.vstatus e.target == VertexStatus.IN))

/-- The per-face test inside `VoronoiDiagram::predicate_c5`: walking the ring
of face `f`, the face is OK if some ring vertex `w ≠ v` has status IN and is
graph-adjacent to `v`, or if some ring vertex `w ≠ v` has kind ENDPOINT,
APEX or SPLIT. -/
def face_has_ok_vertex (g : AugGraph) (v : Nat) (f : Nat) : Bool :=
  (g.faceRing f).any (fun w =>
    (w != v && (g.vstatus w == VertexStatus.IN) && g.hasEdge w v) ||
    (w != v && (g.vtype w == VertexType.ENDPOINT || g.vtype w == VertexType.APEX ||
                g.vtype w == VertexType.SPLIT)))

/-- Function `VoronoiDiagram::predicate_c5`: immediately true when `v` is of kind APEX
or SPLIT; otherwise every face adjacent to `v` (over its out-edges) whose
status is INCIDENT must pass `face_has_ok_vertex`. -/
def predicate_c5 (g : AugGraph) (v : Nat) : Bool :=
  if g.vtype v == VertexType.APEX || g.vtype v == VertexType.SPLIT then true
  else
    ((g.outEdges v).filter (fun e => g.faceStatus e.face == FaceStatus.INCIDENT)).all
      (fun e => face_has_ok_vertex g v e.face)

/-- The decision `VoronoiDiagram::augment_vertex_set` takes for one popped
vertex `v` with queue key `h`: if `h < 0` and neither `predicate_c4`, nor
`!predicate_c5`, nor `!in_region` fires, the vertex is marked IN; in every
other case it is marked OUT. -/
def augment_decision (g : AugGraph) (in_region : Nat → Bool) (v : Nat) (h : ℚ) :
    VertexStatus :=
  if h < 0 then
    if predicate_c4 g v || !predicate_c5 g v || !in_region v then VertexStatus.OUT
    else VertexStatus.IN
  else VertexStatus.OUT

/-- The connectedness condition as worded by the claim (the spec's gloss of
C5): on every incident face already flagged INCIDENT, `v` is graph-adjacent
to some other IN vertex of that face.  Stated for comparison with the
implemented `predicate_c5`. -/
def predicate_c5_claim (g : AugGraph) (v : Nat) : Bool :=
  ((g.outEdges v).filter (fun e => g.faceStatus e.face == FaceStatus.INCIDENT)).all
    (fun e => (g.faceRing e.face).any
      (fun w => w != v && (g.vstatus w == VertexStatus.IN) && g.hasEdge w v))

/-- The claim-C1 statement at a given graph state, popped vertex and key. -/
def augment_claim_form (g : AugGraph) (in_region : Nat → Bool) (v : Nat) (h : ℚ) : Prop :=
  augment_decision g in_region v h = VertexStatus.IN ↔
    (h < 0 ∧ predicate_c4 g v = false ∧ predicate_c5_claim g v = true ∧
      in_region v = true)

/-- Graph state refuting claim C1 as worded: vertex 0 (NORMAL, UNDECIDED) has
out-edges to vertex 1 (IN, on face 0) and to vertex 2 (an ENDPOINT, on face
1); both faces are INCIDENT; face 1's ring holds vertex 3, which is IN but
not adjacent to vertex 0. -/
def c1Graph : AugGraph where
  vstatus := fun v =>
    match v with
    | 1 => VertexStatus.IN
    | 2 => VertexStatus.OUT
    | 3 => VertexStatus.IN
    | _ => VertexStatus.UNDECIDED
  vtype := fun v =>
    match v with
    | 2 => VertexType.ENDPOINT
    | _ => VertexType.NORMAL
  outEdges := fun v =>
    match v with
    | 0 => [⟨1, 0⟩, ⟨2, 1⟩]
    | _ => []
  faceStatus := fun _ => FaceStatus.INCIDENT
  faceRing := fun f =>
    match f with
    | 0 => [0, 1]
    | 1 => [0, 2, 3]
    | _ => []
  hasEdge := fun a b => (a == 1 && b == 0) || (a == 0 && b == 1)

/-- C1 (counterexample): at the state `c1Graph`, the popped vertex 0 with key
−1 is marked IN by the code although the claim's condition (c) — adjacency to
an IN vertex on every INCIDENT face — fails on face 1: the implemented
`predicate_c5` also accepts a face carrying an ENDPOINT ring neighbour. -/
theorem C1_counterexample : ¬ augment_claim_form c1Graph (fun _ => true) 0 (-1) := by
  unfold augment_claim_form
  decide

/-- C1 (amended): a popped vertex `v` with queue key `h` is marked IN iff
(a) `h < 0`, (b) `predicate_c4` is false, (c) the implemented `predicate_c5`
is true — which also accepts a face whose ring carries another vertex of
kind ENDPOINT, APEX or SPLIT, and which holds trivially when `v` itself is
APEX or SPLIT — and (d) the site's `in_region` test accepts `v`; in every
other case the popped vertex is marked OUT. -/
theorem C1_thm (g : AugGraph) (in_region : Nat → Bool) (v : Nat) (h : ℚ) :
    augment_decision g in_region v h = VertexStatus.IN ↔
      (h < 0 ∧ predicate_c4 g v = false ∧ predicate_c5 g v = true ∧
        in_region v = true) := by
  unfold augment_decision
  by_cases hneg : h < 0 <;>
    cases hc4 : predicate_c4 g v <;>
    cases hc5 : predicate_c5 g v <;>
    cases hr : in_region v <;>
    simp [hneg, hc4, hc5, hr]

/-! ## The seed search (claim C2)

`VoronoiDiagram::find_seed_vertex` walks the ring of the candidate face.
For each ring vertex `q` with `status != OUT` and `type == NORMAL` it
evaluates `h = in_circle(...)`; the running minimum is replaced when
`first || (h < minPred && in_region(q))` — so the first qualifying vertex is
accepted unconditionally, and only later replacements are gated on
`in_region`.  A ring vertex is summarised by the data the routine reads. -/

/-- A ring vertex as read by `find_seed_vertex`: its status, kind, the value
`h` of the in-circle predicate against the new site, and the new site's
`in_region` verdict on its position. -/
structure SeedVertex where
  id : Nat
  status : VertexStatus
  vtype : VertexType
  h : ℚ
  inRegion : Bool
  deriving DecidableEq, Repr

/-- The filter of the seed-search loop body: `status != OUT && type == NORMAL`. -/
def seed_qualifies (q : SeedVertex) : Bool :=
  q.status != VertexStatus.OUT && q.vtype == VertexType.NORMAL

/-- One iteration of the seed-search loop.  `none` plays the role of
`first == true`; otherwise the accumulator holds `(minPred, minimalVertex)`
and is replaced when `q.h < minPred && in_region(q)`. -/
def seed_step (acc : Option (ℚ × SeedVertex)) (q : SeedVertex) : Option (ℚ × SeedVertex) :=
  if seed_qualifies q then
    match acc with
    | none => some (q.h, q)
    | some (minPred, minV) =>
      if q.h < minPred ∧ q.inRegion = true then some (q.h, q) else some (minPred, minV)
  else acc

/-- Function `VoronoiDiagram::find_seed_vertex`: fold the loop body over the face
ring; the result is `(minPred, minimalVertex)` (or `none` on a ring with no
qualifying vertex — the C++ then returns an invalid descriptor and its
`assert(minPred < 0)` fires). -/
def find_seed_vertex (ring : List SeedVertex) : Option (ℚ × SeedVertex) :=
  List.foldl seed_step none ring

/-- Loop invariant of the seed search over the processed prefix of the ring:
an empty accumulator means no qualifying vertex was seen, a filled one holds
a qualifying vertex together with its own `h`, and that `h` is at or below
the `h` of every qualifying in-region vertex processed so far. -/
def SeedInv : List SeedVertex → Option (ℚ × SeedVertex) → Prop
  | processed, none => ∀ w ∈ processed, seed_qualifies w = false
  | processed, some (m, v) =>
      seed_qualifies v = true ∧ m = v.h ∧
        ∀ w ∈ processed, seed_qualifies w = true → w.inRegion = true → m ≤ w.h

theorem seed_step_inv (processed : List SeedVertex) (q : SeedVertex)
    (acc : Option (ℚ × SeedVertex)) (h : SeedInv processed acc) :
    SeedInv (processed ++ [q]) (seed_step acc q) := by
  by_cases hq : seed_qualifies q = true
  · cases acc with
    | none =>
      simp only [seed_step, if_pos hq, SeedInv] at h ⊢
      refine ⟨hq, by simp, ?_⟩
      intro w hw hwq hwr
      rcases List.mem_append.mp hw with hw | hw
      · rw [h w hw] at hwq
        exact absurd hwq (by decide)
      · simp only [List.mem_singleton] at hw
        subst hw
        exact le_refl _
    | some p =>
      obtain ⟨mp, mv⟩ := p
      simp only [seed_step, if_pos hq, SeedInv] at h ⊢
      obtain ⟨hqual, heq, hmin⟩ := h
      by_cases hcond : q.h < mp ∧ q.inRegion = true
      · rw [if_pos hcond]
        refine ⟨hq, by simp, ?_⟩
        intro w hw hwq hwr
        rcases List.mem_append.mp hw with hw | hw
        · exact le_of_lt (lt_of_lt_of_le hcond.1 (hmin w hw hwq hwr))
        · simp only [List.mem_singleton] at hw
          subst hw
          exact le_refl _
      · rw [if_neg hcond]
        refine ⟨hqual, heq, ?_⟩
        intro w hw hwq hwr
        rcases List.mem_append.mp hw with hw | hw
        · exact hmin w hw hwq hwr
        · simp only [List.mem_singleton] at hw
          subst hw
          rcases not_and_or.mp hcond with hc | hc
          · exact le_of_not_lt hc
          · exact absurd hwr hc
  · have hstep : seed_step acc q = acc := by
      unfold seed_step
      rw [if_neg hq]
    rw [hstep]
    cases acc with
    | none =>
      simp only [SeedInv] at h ⊢
      intro w hw
      rcases List.mem_append.mp hw with hw | hw
      · exact h w hw
      · simp only [List.mem_singleton] at hw
        subst hw
        exact Bool.eq_false_iff.mpr hq
    | some p =>
      obtain ⟨mp, mv⟩ := p
      simp only [SeedInv] at h ⊢
      obtain ⟨hqual, heq, hmin⟩ := h
      refine ⟨hqual, heq, ?_⟩
      intro w hw hwq hwr
      rcases List.mem_append.mp hw with hw | hw
      · exact hmin w hw hwq hwr
      · simp only [List.mem_singleton] at hw
        subst hw
        exact absurd hwq hq

theorem seed_foldl_inv (ring : List SeedVertex) (processed : List SeedVertex)
    (acc : Option (ℚ × SeedVertex)) (h : SeedInv processed acc) :
    SeedInv (processed ++ ring) (List.foldl seed_step acc ring) := by
  induction ring generalizing processed acc with
  | nil => simpa using h
  | cons q rest ih =>
    have h1 := seed_step_inv processed q acc h
    have h2 := ih (processed ++ [q]) (seed_step acc q) h1
    simpa [List.append_assoc] using h2

/-- The ring refuting claim C2: vertex 1 is NORMAL, non-OUT, has the most
negative in-circle value −2 but lies outside the new site's region; vertex 2
is NORMAL, non-OUT, in-region with value −1. -/
def c2ring : List SeedVertex :=
  [⟨1, VertexStatus.UNDECIDED, VertexType.NORMAL, -2, false⟩,
   ⟨2, VertexStatus.UNDECIDED, VertexType.NORMAL, -1, true⟩]

/-- C2 (counterexample): on `c2ring` the seed search returns vertex 1, which
does not lie in the new site's region — the first qualifying ring vertex is
accepted without the `in_region` check, so the returned vertex does not
always satisfy all three claimed constraints. -/
theorem C2_counterexample :
    (find_seed_vertex c2ring).map (fun p => p.2.id) = some 1 ∧
      (find_seed_vertex c2ring).map (fun p => p.2.inRegion) = some false := by
  constructor <;> decide

/-- C2 (amended): when the seed search returns `(minPred, v)`, the vertex `v`
is of kind NORMAL with status different from OUT, `minPred` is `v`'s own
in-circle value, and `minPred` is at or below the in-circle value of every
NORMAL, non-OUT, in-region vertex of the ring; however `v` itself need not
lie in the new site's region (the first qualifying ring vertex is accepted
unconditionally). -/
theorem C2_thm (ring : List SeedVertex) (m : ℚ) (v : SeedVertex)
    (hfind : find_seed_vertex ring = some (m, v)) :
    (v.status ≠ VertexStatus.OUT ∧ v.vtype = VertexType.NORMAL ∧ m = v.h) ∧
      ∀ w ∈ ring, w.status ≠ VertexStatus.OUT → w.vtype = VertexType.NORMAL →
        w.inRegion = true → m ≤ w.h := by
  have h0 : SeedInv [] none := by
    simp only [SeedInv]
    intro w hw
    exact absurd hw (List.not_mem_nil w)
  have h1 := seed_foldl_inv ring [] none h0
  rw [List.nil_append] at h1
  rw [show List.foldl seed_step none ring = find_seed_vertex ring from rfl, hfind] at h1
  simp only [SeedInv] at h1
  obtain ⟨hq, heq, hmin⟩ := h1
  simp only [seed_qualifies, Bool.and_eq_true, bne_iff_ne, beq_iff_eq] at hq
  refine ⟨⟨hq.1, hq.2, heq⟩, ?_⟩
  intro w hw hws hwt hwr
  exact hmin w hw (by simp [seed_qualifies, hws, hwt]) hwr

/-- The one-vertex ring used to witness the amended C2 theorem. -/
def c2w : SeedVertex := ⟨2, VertexStatus.UNDECIDED, VertexType.NORMAL, -1, true⟩

/-- C2 (witness): the amended theorem applied to a concrete one-vertex ring. -/
theorem C2_witness :
    (c2w.status ≠ VertexStatus.OUT ∧ c2w.vtype = VertexType.NORMAL ∧ (-1 : ℚ) = c2w.h) ∧
      ∀ w ∈ [c2w], w.status ≠ VertexStatus.OUT → w.vtype = VertexType.NORMAL →
        w.inRegion = true → (-1 : ℚ) ≤ w.h :=
  C2_thm [c2w] (-1) c2w (by decide)

/-! ## Status reset after a public operation (claim C3)

`VoronoiDiagram::initialize` creates the frame vertices with explicit
statuses (the central NORMAL vertex and the three APEX vertices UNDECIDED,
the three OUTER vertices and the three POINTSITE marker vertices OUT), and
the three frame faces NONINCIDENT.  `VoronoiDiagram::reset_status` resets
the vertices recorded in `modified_vertices` (via `VoronoiVertex::reset`)
and flips the faces recorded in `incident_faces` back to NONINCIDENT, then
clears the transient containers. -/

/-- Status and kind of the ten vertices created by `initialize`, in creation
order: the central vertex, the three OUTER vertices, the three POINTSITE
generator markers, the three APEX vertices. -/
def init_vertex_data : List (VertexStatus × VertexType) :=
  [(VertexStatus.UNDECIDED, VertexType.NORMAL),
   (VertexStatus.OUT, VertexType.OUTER),
   (VertexStatus.OUT, VertexType.OUTER),
   (VertexStatus.OUT, VertexType.OUTER),
   (VertexStatus.OUT, VertexType.POINTSITE),
   (VertexStatus.OUT, VertexType.POINTSITE),
   (VertexStatus.OUT, VertexType.POINTSITE),
   (VertexStatus.UNDECIDED, VertexType.APEX),
   (VertexStatus.UNDECIDED, VertexType.APEX),
   (VertexStatus.UNDECIDED, VertexType.APEX)]

/-- Status of the three faces created by `initialize`. -/
def init_face_status : List FaceStatus :=
  [FaceStatus.NONINCIDENT, FaceStatus.NONINCIDENT, FaceStatus.NONINCIDENT]

/-- The state read and written by `reset_status`: the status maps and the
three transient containers of the engine. -/
structure ResetState where
  vstatus : Nat → VertexStatus
  fstatus : Nat → FaceStatus
  modified_vertices : List Nat
  incident_faces : List Nat
  v0 : List Nat

/-- Function `VoronoiDiagram::reset_status`: every vertex in `modified_vertices` is
reset (`VoronoiVertex::reset` — modelled from the spec: sets the status back
to UNDECIDED and clears transient flags; its body lives in a header not under
`src/`), every face in `incident_faces` becomes NONINCIDENT, and
`modified_vertices`, `incident_faces` and `v0` are cleared. -/
def reset_status (s : ResetState) : ResetState where
  vstatus := fun v =>
    if v ∈ s.modified_vertices then VertexStatus.UNDECIDED else s.vstatus v
  fstatus := fun f =>
    if f ∈ s.incident_faces then FaceStatus.NONINCIDENT else s.fstatus f
  modified_vertices := []
  incident_faces := []
  v0 := []

/-- C3 (counterexample): already after construction not every vertex has
status UNDECIDED — the three OUTER vertices and the three POINTSITE marker
vertices are created with status OUT. -/
theorem C3_counterexample :
    ¬ ∀ p ∈ init_vertex_data, p.1 = VertexStatus.UNDECIDED := by decide

/-- C3 (amended): after construction every NORMAL and APEX vertex has status
UNDECIDED and every face is NONINCIDENT, while OUTER and POINTSITE vertices
are created with status OUT and are never reset; at the end of each
insertion `reset_status` resets exactly the vertices recorded in
`modified_vertices` to UNDECIDED and the faces recorded in `incident_faces`
to NONINCIDENT, and empties the transient containers. -/
theorem C3_thm :
    (∀ p ∈ init_vertex_data,
        (p.2 = VertexType.OUTER ∨ p.2 = VertexType.POINTSITE → p.1 = VertexStatus.OUT) ∧
        (p.2 = VertexType.NORMAL ∨ p.2 = VertexType.APEX → p.1 = VertexStatus.UNDECIDED)) ∧
      (∀ fs ∈ init_face_status, fs = FaceStatus.NONINCIDENT) ∧
      ∀ s : ResetState,
        (∀ v ∈ s.modified_vertices, (reset_status s).vstatus v = VertexStatus.UNDECIDED) ∧
        (∀ f ∈ s.incident_faces, (reset_status s).fstatus f = FaceStatus.NONINCIDENT) ∧
        (reset_status s).modified_vertices = [] ∧
        (reset_status s).incident_faces = [] ∧
        (reset_status s).v0 = [] := by
  refine ⟨by decide, by decide, ?_⟩
  intro s
  refine ⟨?_, ?_, rfl, rfl, rfl⟩
  · intro v hv
    simp [reset_status, hv]
  · intro f hf
    simp [reset_status, hf]

/-- A concrete engine state used to witness the amended C3 theorem. -/
def c3state : ResetState :=
  ⟨fun _ => VertexStatus.IN, fun _ => FaceStatus.INCIDENT, [5], [2], [5]⟩

/-- C3 (witness): the amended theorem applied to concrete inputs. -/
theorem C3_witness :
    (VertexStatus.OUT, VertexType.OUTER).1 = VertexStatus.OUT ∧
      (reset_status c3state).vstatus 5 = VertexStatus.UNDECIDED ∧
      (reset_status c3state).fstatus 2 = FaceStatus.NONINCIDENT :=
  ⟨(C3_thm.1 (VertexStatus.OUT, VertexType.OUTER) (by decide)).1 (Or.inl rfl),
   (C3_thm.2.2 c3state).1 5 (by decide),
   (C3_thm.2.2 c3state).2.1 2 (by decide)⟩

/-! ## Site counters (claim C4)

The constructor (`VoronoiDiagram::VoronoiDiagram`) sets `num_psites = 3` and
`num_lsites = 0`; `insert_point_site` begins with `num_psites++` and
`insert_line_site` with `num_lsites++`. -/

/-- The two site counters of the engine. -/
structure SiteCounts where
  num_psites : Nat
  num_lsites : Nat
  deriving DecidableEq, Repr

/-- Counter state established by the constructor: `num_psites=3`,
`num_lsites=0` (the three frame generators count as point sites). -/
def initCounts : SiteCounts := ⟨3, 0⟩

/-- A public insertion, as far as the counters are concerned. -/
inductive SiteOp
  | point
  | line
  deriving DecidableEq, Repr

/-- Effect of one insertion on the counters: `insert_point_site` does
`num_psites++`, `insert_line_site` does `num_lsites++`. -/
def applyOp (s : SiteCounts) : SiteOp → SiteCounts
  | SiteOp.point => { s with num_psites := s.num_psites + 1 }
  | SiteOp.line => { s with num_lsites := s.num_lsites + 1 }

/-- A sequence of insertions applied to a counter state. -/
def applyOps (s : SiteCounts) : List SiteOp → SiteCounts
  | [] => s
  | op :: rest => applyOps (applyOp s op) rest

/-- Accessor `VoronoiDiagram::num_point_sites` returns `num_psites`. -/
def num_point_sites (s : SiteCounts) : Nat := s.num_psites

/-- Accessor `VoronoiDiagram::num_line_sites` returns `num_lsites`. -/
def num_line_sites (s : SiteCounts) : Nat := s.num_lsites

theorem applyOps_counts (ops : List SiteOp) (s : SiteCounts) :
    applyOps s ops =
      ⟨s.num_psites + ops.count SiteOp.point, s.num_lsites + ops.count SiteOp.line⟩ := by
  induction ops generalizing s with
  | nil => simp [applyOps, List.count_nil]
  | cons op rest ih =>
    cases op with
    | point =>
      rw [show applyOps s (SiteOp.point :: rest) = applyOps (applyOp s SiteOp.point) rest
        from rfl, ih]
      simp only [applyOp, List.count_cons, SiteCounts.mk.injEq]
      constructor <;> first | (simp; omega) | simp
    | line =>
      rw [show applyOps s (SiteOp.line :: rest) = applyOps (applyOp s SiteOp.line) rest
        from rfl, ih]
      simp only [applyOp, List.count_cons, SiteCounts.mk.injEq]
      constructor <;> first | (simp; omega) | simp

/-- C4: for a freshly constructed engine, after any sequence of insertions
containing `N` point inserts and `M` line inserts, `num_point_sites` returns
`N + 3` and `num_line_sites` returns `M`. -/
theorem C4_thm (ops : List SiteOp) :
    num_point_sites (applyOps initCounts ops) = ops.count SiteOp.point + 3 ∧
      num_line_sites (applyOps initCounts ops) = ops.count SiteOp.line := by
  rw [applyOps_counts ops initCounts]
  constructor
  · simp [num_point_sites, initCounts]
    omega
  · simp [num_line_sites, initCounts]

/-! ## Step-mode returns of `insert_point_site` (claim C7)

`insert_point_site(p, step)` initialises `current_step = 1` and contains
five `if (step==current_step) return -1; current_step++;` checkpoints — after
the seed phase, the augment phase, the new-vertex phase, the edge-adding
phase and the vertex-removal phase.  When no checkpoint triggers, the
function returns the new site's index. -/

/-- Return value of `insert_point_site` as a function of the `step` argument
and of the index `idx` the completed call would return.  The five branches
mirror the five checkpoints in the source, in order. -/
def insert_point_site_return (step : Int) (idx : Int) : Int :=
  if step = 1 then -1
  else if step = 2 then -1
  else if step = 3 then -1
  else if step = 4 then -1
  else if step = 5 then -1
  else idx

/-- C7 (counterexample): with `step = 6` the call does not return −1 — there
are only five step checkpoints in `insert_point_site`, so after the fifth
phase the function runs to completion and returns the site's index (here 7). -/
theorem C7_counterexample : insert_point_site_return 6 7 ≠ -1 := by decide

/-- C7 (amended): for a step value in 1..5, `insert_point_site(p, step)`
returns −1 after the corresponding phase completes; for any other step value
(in particular 6) the call runs to completion and returns the site's stable
integer index. -/
theorem C7_thm (step idx : Int) :
    (1 ≤ step ∧ step ≤ 5 → insert_point_site_return step idx = -1) ∧
      (step ≤ 0 ∨ 6 ≤ step → insert_point_site_return step idx = idx) := by
  constructor
  · rintro ⟨h1, h5⟩
    unfold insert_point_site_return
    split_ifs <;> first | rfl | omega
  · intro hrange
    unfold insert_point_site_return
    split_ifs <;> first | rfl | omega

/-- C7 (witness): step 3 yields −1, step 6 yields the index. -/
theorem C7_witness :
    insert_point_site_return 3 7 = -1 ∧ insert_point_site_return 6 7 = 7 :=
  ⟨(C7_thm 3 7).1 (by decide), (C7_thm 6 7).2 (Or.inr (by decide))⟩

/-! ## The apex-split rule in `add_edge` (claim C5)

`VoronoiDiagram::add_edge` joins the two NEW vertices found on an INCIDENT
face.  When the face's site is a point, it computes `src_sign`/`trg_sign` by
`is_right` against the segment from the face's point site towards the new
site (for a new line site, towards `apex_point` of the point, i.e. the foot
of the perpendicular); equal signs yield one twinned edge pair, different
signs yield an interposed APEX vertex and two twinned pairs. -/

/-- Predicate `Point::is_right(p1, p2)` — modelled from the spec (the body lives in
`common/point.cpp`, not under `src/`; `common/point.hpp` only declares it):
whether the point lies strictly to the right of the directed line p1→p2,
i.e. the cross product of (p2−p1) with (p−p1) is negative. -/
def is_right (p p1 p2 : ℚ × ℚ) : Bool :=
  decide ((p2.1 - p1.1) * (p.2 - p1.2) - (p2.2 - p1.2) * (p.1 - p1.1) < 0)

/-- A site: a point site with its position, or a line site with its
normalised line coefficients a,b,c (a·x + b·y + c = 0, a² + b² = 1). -/
inductive Site
  | point (pos : ℚ × ℚ)
  | line (a b c : ℚ)
  deriving DecidableEq, Repr

/-- Function `Site::apex_point(q)` — modelled from the spec: for a point site the site
itself; for a line site the foot of the perpendicular from q (the site
classes live in headers not under `src/`). -/
def apex_point (s : Site) (q : ℚ × ℚ) : ℚ × ℚ :=
  match s with
  | Site.point pos => pos
  | Site.line a b c => (q.1 - (a * q.1 + b * q.2 + c) * a, q.2 - (a * q.1 + b * q.2 + c) * b)

/-- What `add_edge` builds between the two NEW vertices: the number of
twinned half-edge pairs, and whether an APEX vertex was interposed. -/
structure AddEdgeShape where
  twin_pairs : Nat
  apex_inserted : Bool
  deriving DecidableEq, Repr

/-- The branch structure of `VoronoiDiagram::add_edge`: `src_sign`/`trg_sign`
are computed for a point–line pair against `pt1 = f_site->position()` and
`pt2 = new_site->apex_point(pt1)`, for a point–point pair against the two
site positions; for line–line both signs keep their initialiser `true`; any
other pairing hits `assert(0)` (`none`).  Equal signs: one twinned pair.
Different signs: an APEX vertex plus two twinned pairs. -/
def add_edge_shape (f_site new_site : Site) (src trg : ℚ × ℚ) : Option AddEdgeShape :=
  match f_site, new_site with
  | Site.point pt1, Site.line a b c =>
    let pt2 := apex_point (Site.line a b c) pt1
    some (if is_right src pt1 pt2 = is_right trg pt1 pt2 then ⟨1, false⟩ else ⟨2, true⟩)
  | Site.point pt1, Site.point pos2 =>
    some (if is_right src pt1 pos2 = is_right trg pt1 pos2 then ⟨1, false⟩ else ⟨2, true⟩)
  | Site.line _ _ _, Site.line _ _ _ => some ⟨1, false⟩
  | Site.line _ _ _, Site.point _ => none

/-- The point the sign test aims at, seen from the point site of the face:
the new site's position for a point site, the foot of the perpendicular from
the face's point site for a line site — "the line from the point-site of f
to the new site". -/
def sign_target (fpos : ℚ × ℚ) : Site → ℚ × ℚ
  | Site.point pos => pos
  | Site.line a b c => apex_point (Site.line a b c) fpos

/-- C5: on a face carrying a point site, `add_edge` interposes an APEX vertex
and adds two twinned half-edge pairs exactly when the two NEW endpoints lie
on opposite sides of the line from the face's point site towards the new
site, and adds exactly one twinned pair (and no APEX) when they lie on the
same side. -/
theorem C5_thm (fpos : ℚ × ℚ) (ns : Site) (src trg : ℚ × ℚ) (r : AddEdgeShape)
    (hr : add_edge_shape (Site.point fpos) ns src trg = some r) :
    (r = ⟨2, true⟩ ↔
        is_right src fpos (sign_target fpos ns) ≠ is_right trg fpos (sign_target fpos ns)) ∧
      (r = ⟨1, false⟩ ↔
        is_right src fpos (sign_target fpos ns) = is_right trg fpos (sign_target fpos ns)) := by
  cases ns with
  | point pos =>
    simp only [add_edge_shape, sign_target, Option.some.injEq] at hr ⊢
    by_cases hc : is_right src fpos pos = is_right trg fpos pos
    · rw [if_pos hc] at hr
      subst hr
      simp [hc, AddEdgeShape.mk.injEq]
    · rw [if_neg hc] at hr
      subst hr
      simp [hc, AddEdgeShape.mk.injEq]
  | line a b c =>
    simp only [add_edge_shape, sign_target, Option.some.injEq] at hr ⊢
    by_cases hc : is_right src fpos (apex_point (Site.line a b c) fpos) =
        is_right trg fpos (apex_point (Site.line a b c) fpos)
    · rw [if_pos hc] at hr
      subst hr
      simp [hc, AddEdgeShape.mk.injEq]
    · rw [if_neg hc] at hr
      subst hr
      simp [hc, AddEdgeShape.mk.injEq]

/-- C5 (witness): a concrete instance — face site at the origin, new point
site at (2,0), NEW endpoints (1,1) and (1,−1) on opposite sides: two pairs
and an APEX. -/
theorem C5_witness :
    ((⟨2, true⟩ : AddEdgeShape) = ⟨2, true⟩ ↔
        is_right (1, 1) (0, 0) (sign_target (0, 0) (Site.point (2, 0))) ≠
          is_right (1, -1) (0, 0) (sign_target (0, 0) (Site.point (2, 0)))) ∧
      ((⟨2, true⟩ : AddEdgeShape) = ⟨1, false⟩ ↔
        is_right (1, 1) (0, 0) (sign_target (0, 0) (Site.point (2, 0))) =
          is_right (1, -1) (0, 0) (sign_target (0, 0) (Site.point (2, 0)))) :=
  C5_thm (0, 0) (Site.point (2, 0)) (1, 1) (1, -1) ⟨2, true⟩
    (by simp [add_edge_shape, is_right])

/-! ## SPLIT-vertex cleanup at the end of `insert_line_site` (claim C6)

Just before `reset_status`, `insert_line_site` runs
`remove_split_vertex(f)` over every face in `incident_faces`; that routine
repeatedly finds a SPLIT vertex on the face (`find_split_vertex`, a scan of
`face_vertices(f)`) and deletes it with `remove_deg2_vertex`, which merges
the edge pairs around the vertex and removes it from the vertex set and from
the rings of both faces it lay on.  The graph state is modelled by the live
vertex set, the (immutable) kind of each vertex, and the ring of each
face. -/

/-- The graph state read by the SPLIT cleanup. -/
structure CleanGraph where
  verts : List Nat
  vtype : Nat → VertexType
  faces : Nat → List Nat

/-- Operation `HEGraph::remove_deg2_vertex` at this level of abstraction — modelled
from the spec (the graph class lives in a header not under `src/`): the
vertex disappears from the vertex set and from every face ring, the edges
around it being merged. -/
def removeVertex (g : CleanGraph) (v : Nat) : CleanGraph where
  verts := g.verts.filter (fun w => w != v)
  vtype := g.vtype
  faces := fun f => (g.faces f).filter (fun w => w != v)

/-- Function `VoronoiDiagram::find_split_vertex`: scan the vertices of face `f` and
return the first one of kind SPLIT, if any. -/
def find_split_vertex (g : CleanGraph) (f : Nat) : Option Nat :=
  (g.faces f).find? (fun v => g.vtype v == VertexType.SPLIT)

/-- The while-loop of `VoronoiDiagram::remove_split_vertex`, with explicit
fuel: while a SPLIT vertex is found on face `f`, remove it. -/
def remove_split_loop (fuel : Nat) (g : CleanGraph) (f : Nat) : CleanGraph :=
  match fuel with
  | 0 => g
  | fuel + 1 =>
    match find_split_vertex g f with
    | none => g
    | some v => remove_split_loop fuel (removeVertex g v) f

/-- Function `VoronoiDiagram::remove_split_vertex(f)`: the loop terminates because
every removal shortens the ring of `f`, so the ring length is enough fuel. -/
def remove_split_vertex (g : CleanGraph) (f : Nat) : CleanGraph :=
  remove_split_loop (g.faces f).length g f

/-- The cleanup pass of `insert_line_site`: `remove_split_vertex(f)` for
every face in `incident_faces`, in order. -/
def remove_all_splits (g : CleanGraph) : List Nat → CleanGraph
  | [] => g
  | f :: rest => remove_all_splits (remove_split_vertex g f) rest

/-- Function `VoronoiDiagram::num_split_vertices`: the number of SPLIT vertices in
the whole graph. -/
def num_split_vertices (g : CleanGraph) : Nat :=
  (g.verts.filter (fun v => g.vtype v == VertexType.SPLIT)).length

theorem find_split_removeVertex_none (g : CleanGraph) (v : Nat) (f : Nat)
    (h : find_split_vertex g f = none) :
    find_split_vertex (removeVertex g v) f = none := by
  rw [find_split_vertex, List.find?_eq_none] at h ⊢
  intro x hx
  exact h x (List.mem_of_mem_filter hx)

theorem find_split_loop_none (fuel : Nat) (g : CleanGraph) (f f' : Nat)
    (h : find_split_vertex g f = none) :
    find_split_vertex (remove_split_loop fuel g f') f = none := by
  induction fuel generalizing g with
  | zero => exact h
  | succ fuel ih =>
    rw [remove_split_loop]
    cases hfs : find_split_vertex g f' with
    | none => exact h
    | some v => exact ih (removeVertex g v) (find_split_removeVertex_none g v f h)

theorem remove_split_loop_clears (fuel : Nat) (g : CleanGraph) (f : Nat)
    (h : (g.faces f).length ≤ fuel) :
    find_split_vertex (remove_split_loop fuel g f) f = none := by
  induction fuel generalizing g with
  | zero =>
    have hnil : g.faces f = [] := List.length_eq_zero.mp (Nat.le_zero.mp h)
    rw [remove_split_loop, find_split_vertex, hnil]
    rfl
  | succ fuel ih =>
    rw [remove_split_loop]
    cases hfs : find_split_vertex g f with
    | none => exact hfs
    | some v =>
      apply ih
      rw [find_split_vertex] at hfs
      have hv : v ∈ g.faces f := List.mem_of_find?_eq_some hfs
      have hlt : ((g.faces f).filter (fun w => w != v)).length < (g.faces f).length := by
        apply List.length_filter_lt_length_iff_exists.mpr
        exact ⟨v, hv, by simp⟩
      have : ((removeVertex g v).faces f).length < (g.faces f).length := hlt
      omega

/-- Once face `f` is free of SPLIT vertices, the rest of the cleanup keeps
it so (it only removes vertices). -/
theorem remove_all_splits_preserves_none (L : List Nat) (g : CleanGraph) (f : Nat)
    (h : find_split_vertex g f = none) :
    find_split_vertex (remove_all_splits g L) f = none := by
  induction L generalizing g with
  | nil => exact h
  | cons f' rest ih =>
    rw [remove_all_splits]
    exact ih (remove_split_vertex g f') (find_split_loop_none _ g f f' h)

theorem remove_all_splits_clears (L : List Nat) (g : CleanGraph) :
    ∀ f ∈ L, find_split_vertex (remove_all_splits g L) f = none := by
  induction L generalizing g with
  | nil => intro f hf; exact absurd hf (List.not_mem_nil f)
  | cons f' rest ih =>
    intro f hf
    rcases List.mem_cons.mp hf with hf | hf
    · subst hf
      rw [remove_all_splits]
      exact remove_all_splits_preserves_none rest _ f
        (remove_split_loop_clears _ g f (le_refl _))
    · rw [remove_all_splits]
      exact ih (remove_split_vertex g f') f hf

/-- The cleanup only removes vertices: the surviving vertex set is a subset
of the original, kinds are unchanged, and a surviving vertex stays on every
ring it was on. -/
def CleanSub (g0 g : CleanGraph) : Prop :=
  (∀ v ∈ g.verts, v ∈ g0.verts) ∧
    (∀ f v, v ∈ g.verts → v ∈ g0.faces f → v ∈ g.faces f) ∧
    g.vtype = g0.vtype

theorem CleanSub_removeVertex (g0 g : CleanGraph) (v : Nat) (h : CleanSub g0 g) :
    CleanSub g0 (removeVertex g v) := by
  obtain ⟨h1, h2, h3⟩ := h
  refine ⟨?_, ?_, h3⟩
  · intro x hx
    have hx' : x ∈ g.verts.filter (fun w => w != v) := hx
    exact h1 x (List.mem_of_mem_filter hx')
  · intro f x hx hx0
    have hx' : x ∈ g.verts.filter (fun w => w != v) := hx
    have hmf := List.mem_filter.mp hx'
    show x ∈ (g.faces f).filter (fun w => w != v)
    exact List.mem_filter.mpr ⟨h2 f x hmf.1 hx0, hmf.2⟩

theorem CleanSub_loop (fuel : Nat) (g0 g : CleanGraph) (f : Nat) (h : CleanSub g0 g) :
    CleanSub g0 (remove_split_loop fuel g f) := by
  induction fuel generalizing g with
  | zero => exact h
  | succ fuel ih =>
    rw [remove_split_loop]
    cases find_split_vertex g f with
    | none => exact h
    | some v => exact ih (removeVertex g v) (CleanSub_removeVertex g0 g v h)

theorem CleanSub_remove_all (L : List Nat) (g0 g : CleanGraph) (h : CleanSub g0 g) :
    CleanSub g0 (remove_all_splits g L) := by
  induction L generalizing g with
  | nil => exact h
  | cons f rest ih =>
    rw [remove_all_splits]
    exact ih (remove_split_vertex g f) (CleanSub_loop _ g0 g f h)

/-- C6: when every SPLIT vertex of the graph lies on the ring of some face
in `incident_faces` — which holds at the end of `insert_line_site`, since
`add_split_vertex` inserts SPLIT vertices only into edges of a face that is
flagged INCIDENT at that very moment, and SPLIT vertices marked IN are
already gone with `remove_vertex_set` — the cleanup pass leaves no SPLIT
vertex anywhere in the graph. -/
theorem C6_thm (g : CleanGraph) (L : List Nat)
    (hcover : ∀ v ∈ g.verts, g.vtype v = VertexType.SPLIT → ∃ f ∈ L, v ∈ g.faces f) :
    num_split_vertices (remove_all_splits g L) = 0 := by
  have hsub : CleanSub g (remove_all_splits g L) :=
    CleanSub_remove_all L g g ⟨fun v hv => hv, fun f v _ hv => hv, rfl⟩
  rw [num_split_vertices, List.length_eq_zero, List.filter_eq_nil_iff]
  intro v hv
  simp only [beq_iff_eq]
  intro hsplit
  have hv0 : v ∈ g.verts := hsub.1 v hv
  have htype : g.vtype v = VertexType.SPLIT := by
    rw [← hsub.2.2]
    exact hsplit
  obtain ⟨f, hfL, hvf⟩ := hcover v hv0 htype
  have hvf' : v ∈ (remove_all_splits g L).faces f := hsub.2.1 f v hv hvf
  have hnone := remove_all_splits_clears L g f hfL
  rw [find_split_vertex, List.find?_eq_none] at hnone
  exact hnone v hvf' (by simp [hsplit])

/-- A concrete graph used to witness the C6 theorem: one SPLIT vertex on the
ring of the single incident face. -/
def c6graph : CleanGraph where
  verts := [0, 1, 2]
  vtype := fun v =>
    match v with
    | 1 => VertexType.SPLIT
    | _ => VertexType.NORMAL
  faces := fun f =>
    match f with
    | 0 => [0, 1, 2]
    | _ => []

/-- C6 (witness): the theorem applied to `c6graph` with incident-face list [0]. -/
theorem C6_witness : num_split_vertices (remove_all_splits c6graph [0]) = 0 :=
  C6_thm c6graph [0] (by decide)

/-! ## The far-radius precondition of `insert_point_site` (claim C8)

`insert_point_site` executes `num_psites++` and only then
`assert( p.norm() < far_radius )`; the point-site vertex and its
`vertex_map` entry are created after the assert.  The comparison
`p.norm() < far_radius` is expressed on squares (`far_radius > 0` in any
valid construction).  A failing assert aborts loudly; the model returns the
state at the abort point together with `none`. -/

/-- The structural state of the engine touched by the guarded prefix of
`insert_point_site`: the point-site counter, the vertex set, the
index-to-descriptor map, and the fresh-id counter. -/
structure PointInsertState where
  num_psites : Nat
  verts : List Nat
  vertex_map : List (Nat × Nat)
  vertex_count : Nat
  deriving DecidableEq, Repr

/-- The prefix of `VoronoiDiagram::insert_point_site` around its
precondition: `num_psites++` first, then the far-radius check; on success
the point-site vertex is created and recorded in `vertex_map` and its index
returned, on failure the call aborts (`none`) with the counter already
incremented. -/
def insert_point_site_checked (s : PointInsertState) (p : ℚ × ℚ) (far : ℚ) :
    PointInsertState × Option Nat :=
  let s1 : PointInsertState := { s with num_psites := s.num_psites + 1 }
  if p.1 ^ 2 + p.2 ^ 2 < far ^ 2 then
    let idx := s1.vertex_count
    ({ s1 with vertex_count := idx + 1
               verts := idx :: s1.verts
               vertex_map := (idx, idx) :: s1.vertex_map }, some idx)
  else
    (s1, none)

/-- A freshly constructed engine state for the C8 example: three frame
point sites, nothing in the map. -/
def c8state : PointInsertState := ⟨3, [], [], 0⟩

/-- C8 (counterexample): the failing call `insert_point_site((2,0))` with
`far_radius = 1` does change a counter of the diagram — `num_psites++` runs
before the precondition assert fires, so the counter at the abort point is 4,
not 3. -/
theorem C8_counterexample :
    (insert_point_site_checked c8state (2, 0) 1).1.num_psites ≠ c8state.num_psites := by
  simp [insert_point_site_checked, c8state]

/-- C8 (amended): for `‖p‖ ≥ far_radius` the call fails loudly on the
precondition before any vertex or `vertex_map` entry is created — the vertex
set, the map and the fresh-id counter are unchanged — but `num_psites` has
already been incremented when the check fires. -/
theorem C8_thm (s : PointInsertState) (p : ℚ × ℚ) (far : ℚ)
    (h : ¬ p.1 ^ 2 + p.2 ^ 2 < far ^ 2) :
    (insert_point_site_checked s p far).2 = none ∧
      (insert_point_site_checked s p far).1.verts = s.verts ∧
      (insert_point_site_checked s p far).1.vertex_map = s.vertex_map ∧
      (insert_point_site_checked s p far).1.vertex_count = s.vertex_count ∧
      (insert_point_site_checked s p far).1.num_psites = s.num_psites + 1 := by
  simp [insert_point_site_checked, h]

/-- C8 (witness): the amended theorem applied to the concrete failing call. -/
theorem C8_witness :
    (insert_point_site_checked c8state (2, 0) 1).2 = none ∧
      (insert_point_site_checked c8state (2, 0) 1).1.verts = c8state.verts ∧
      (insert_point_site_checked c8state (2, 0) 1).1.vertex_map = c8state.vertex_map ∧
      (insert_point_site_checked c8state (2, 0) 1).1.vertex_count = c8state.vertex_count ∧
      (insert_point_site_checked c8state (2, 0) 1).1.num_psites = c8state.num_psites + 1 :=
  C8_thm c8state (2, 0) 1 (by simp)

/-! ## The initial frame (claim C9)

`VoronoiDiagram::initialize` builds the bounding frame: three generator
points at radius 3·far, three OUTER vertices at radius
3·far_multiplier·far with `far_multiplier = 6`, the central vertex at the
origin and three APEX vertices at the generator-pair midpoints; then fifteen
half-edges — per face five: two LINE halves to the first apex, one OUTEDGE,
two LINE halves back — of which `e2`, `e5`, `e8` are OUTEDGE with an invalid
twin and the other twelve are LINE, twinned in six pairs.

Every coordinate produced by `initialize` is of the form `(u·√3, v)` with
`u v : ℚ`, so positions are embedded as such pairs; the squared norm of
`(u·√3, v)` is `3·u² + v²`. -/

/-- A frame position `(u·√3, v)`. -/
structure FramePoint where
  u : ℚ
  v : ℚ
  deriving DecidableEq, Repr

/-- Squared Euclidean norm of a frame position: `(u·√3)² + v² = 3u² + v²`. -/
def FramePoint.normSq (p : FramePoint) : ℚ := 3 * p.u ^ 2 + p.v ^ 2

/-- Componentwise sum of frame positions. -/
def frame_add (p q : FramePoint) : FramePoint := ⟨p.u + q.u, p.v + q.v⟩

/-- Scalar multiple of a frame position. -/
def frame_smul (c : ℚ) (p : FramePoint) : FramePoint := ⟨c * p.u, c * p.v⟩

/-- The midpoint of two positions (the spec's "midpoints of each generator
pair"). -/
def frame_mid (p q : FramePoint) : FramePoint := ⟨(p.u + q.u) / 2, (p.v + q.v) / 2⟩

/-- Constant `far_multiplier = 6` of the frame construction. -/
def far_multiplier : ℚ := 6

/-- Generator `gen1 = ( 0, 3·far )`. -/
def gen1 (far : ℚ) : FramePoint := ⟨0, 3 * far⟩

/-- Generator `gen2 = ( −3·√3·far/2, −3·far/2 )`. -/
def gen2 (far : ℚ) : FramePoint := ⟨-(3 * far) / 2, -(3 * far) / 2⟩

/-- Generator `gen3 = ( +3·√3·far/2, −3·far/2 )`. -/
def gen3 (far : ℚ) : FramePoint := ⟨3 * far / 2, -(3 * far) / 2⟩

/-- Outer vertex `vd1 = ( 0, −3·far·far_multiplier )`. -/
def vd1 (far : ℚ) : FramePoint := ⟨0, -(3 * far * far_multiplier)⟩

/-- Outer vertex `vd2 = ( +3·√3·far·far_multiplier/2, +3·far·far_multiplier/2 )`. -/
def vd2 (far : ℚ) : FramePoint := ⟨3 * far * far_multiplier / 2, 3 * far * far_multiplier / 2⟩

/-- Outer vertex `vd3 = ( −3·√3·far·far_multiplier/2, +3·far·far_multiplier/2 )`. -/
def vd3 (far : ℚ) : FramePoint := ⟨-(3 * far * far_multiplier) / 2, 3 * far * far_multiplier / 2⟩

/-- Apex `a1 = 0.5·(gen2 + gen3)`. -/
def apex1 (far : ℚ) : FramePoint := frame_smul (1 / 2) (frame_add (gen2 far) (gen3 far))

/-- Apex `a2 = 0.5·(gen1 + gen3)`. -/
def apex2 (far : ℚ) : FramePoint := frame_smul (1 / 2) (frame_add (gen1 far) (gen3 far))

/-- Apex `a3 = 0.5·(gen1 + gen2)`. -/
def apex3 (far : ℚ) : FramePoint := frame_smul (1 / 2) (frame_add (gen1 far) (gen2 far))

/-- A vertex created by `initialize`: position, status, kind. -/
structure InitVertex where
  pos : FramePoint
  status : VertexStatus
  vtype : VertexType
  deriving DecidableEq, Repr

/-- The ten vertices created by `initialize`, in creation order. -/
def init_frame_vertices (far : ℚ) : List InitVertex :=
  [⟨⟨0, 0⟩, VertexStatus.UNDECIDED, VertexType.NORMAL⟩,
   ⟨vd1 far, VertexStatus.OUT, VertexType.OUTER⟩,
   ⟨vd2 far, VertexStatus.OUT, VertexType.OUTER⟩,
   ⟨vd3 far, VertexStatus.OUT, VertexType.OUTER⟩,
   ⟨gen1 far, VertexStatus.OUT, VertexType.POINTSITE⟩,
   ⟨gen2 far, VertexStatus.OUT, VertexType.POINTSITE⟩,
   ⟨gen3 far, VertexStatus.OUT, VertexType.POINTSITE⟩,
   ⟨apex1 far, VertexStatus.UNDECIDED, VertexType.APEX⟩,
   ⟨apex2 far, VertexStatus.UNDECIDED, VertexType.APEX⟩,
   ⟨apex3 far, VertexStatus.UNDECIDED, VertexType.APEX⟩]

/-- Type and twin-presence of the fifteen half-edges created by
`initialize`, in creation order:
`e1_1, e1_2, e2, e3_1, e3_2, e4_1, e4_2, e5, e6_1, e6_2, e7_1, e7_2, e8,
e9_1, e9_2`; `e2`, `e5`, `e8` are OUTEDGE with `twin = HEEdge()` (no twin),
the rest are LINE and twinned. -/
def init_edge_types : List (EdgeType × Bool) :=
  [(EdgeType.LINE, true), (EdgeType.LINE, true), (EdgeType.OUTEDGE, false),
   (EdgeType.LINE, true), (EdgeType.LINE, true),
   (EdgeType.LINE, true), (EdgeType.LINE, true), (EdgeType.OUTEDGE, false),
   (EdgeType.LINE, true), (EdgeType.LINE, true),
   (EdgeType.LINE, true), (EdgeType.LINE, true), (EdgeType.OUTEDGE, false),
   (EdgeType.LINE, true), (EdgeType.LINE, true)]

/-- C9 (counterexample): the frame does not consist of nine half-edges with
six of type LINE — `initialize` creates fifteen half-edges, of which twelve
are LINE (six twin pairs) and three are twin-less OUTEDGE. -/
theorem C9_counterexample :
    ¬ (init_edge_types.length = 9 ∧
        (init_edge_types.filter (fun e => e.1 == EdgeType.OUTEDGE && !e.2)).length = 3 ∧
        (init_edge_types.filter (fun e => e.1 == EdgeType.LINE)).length = 6) := by
  decide

/-- The amended description of the initial frame, at a given `far`. -/
def init_frame_spec (far : ℚ) : Prop :=
  ((init_frame_vertices far).filter (fun w => w.vtype == VertexType.POINTSITE)).length = 3 ∧
    (∀ w ∈ init_frame_vertices far, w.vtype = VertexType.POINTSITE →
      w.pos.normSq = (3 * far) ^ 2) ∧
    ((init_frame_vertices far).filter (fun w => w.vtype == VertexType.OUTER)).length = 3 ∧
    (∀ w ∈ init_frame_vertices far, w.vtype = VertexType.OUTER →
      w.pos.normSq = (3 * far_multiplier * far) ^ 2) ∧
    ((init_frame_vertices far).filter (fun w => w.vtype == VertexType.NORMAL)).length = 1 ∧
    (∀ w ∈ init_frame_vertices far, w.vtype = VertexType.NORMAL → w.pos = ⟨0, 0⟩) ∧
    ((init_frame_vertices far).filter (fun w => w.vtype == VertexType.APEX)).length = 3 ∧
    apex1 far = frame_mid (gen2 far) (gen3 far) ∧
    apex2 far = frame_mid (gen1 far) (gen3 far) ∧
    apex3 far = frame_mid (gen1 far) (gen2 far) ∧
    init_edge_types.length = 15 ∧
    (init_edge_types.filter (fun e => e.1 == EdgeType.OUTEDGE && !e.2)).length = 3 ∧
    (init_edge_types.filter (fun e => e.1 == EdgeType.LINE && e.2)).length = 12

/-- C9 (amended): the constructed frame has exactly three POINTSITE
generators at squared distance `(3·far)²`, three OUTER vertices at squared
distance `(3·6·far)²`, one central NORMAL vertex at the origin, and three
APEX vertices at the generator-pair midpoints; of its fifteen half-edges,
exactly three are twin-less OUTEDGE and the remaining twelve are twinned
LINE bisector halves. -/
theorem C9_thm (far : ℚ) : init_frame_spec far := by
  refine ⟨rfl, ?_, rfl, ?_, rfl, ?_, rfl, ?_, ?_, ?_, rfl, rfl, rfl⟩
  · intro w hw hty
    fin_cases hw <;>
      simp_all [FramePoint.normSq, gen1, gen2, gen3, apex1, apex2, apex3,
        frame_smul, frame_add, vd1, vd2, vd3, far_multiplier] <;>
      ring
  · intro w hw hty
    fin_cases hw <;>
      simp_all [FramePoint.normSq, gen1, gen2, gen3, apex1, apex2, apex3,
        frame_smul, frame_add, vd1, vd2, vd3, far_multiplier] <;>
      ring
  · intro w hw hty
    fin_cases hw <;> simp_all
  · simp only [apex1, frame_mid, frame_smul, frame_add, gen2, gen3, FramePoint.mk.injEq]
    constructor <;> ring
  · simp only [apex2, frame_mid, frame_smul, frame_add, gen1, gen3, FramePoint.mk.injEq]
    constructor <;> ring
  · simp only [apex3, frame_mid, frame_smul, frame_add, gen1, gen2, FramePoint.mk.injEq]
    constructor <;> ring

/-! ## Round-trip of site indices (claim C10)

`insert_point_site` stores `(g[new_vert].index, new_vert)` in `vertex_map`
and returns the index; `find_endpoints(idx1, idx2)` looks both indices up in
the map and returns the two vertex descriptors.  The index is the stable
monotone counter of the `VoronoiVertex` constructor — modelled from the
spec ("a stable monotone integer index"; the vertex class lives in a header
not under `src/`): every vertex created during a call takes the next value,
so a call that creates `aux` further vertices after the point-site marker
advances the counter by `1 + aux`.  Descriptors are likewise modelled as
fresh ids handed out by `g.add_vertex`; the ten frame vertices occupy
descriptors 0..9, and `reset_vertex_count()` in the constructor restarts the
index counter at 0. -/

/-- The engine state relevant to the index round-trip. -/
structure VertexMapState where
  desc_count : Nat
  index_count : Nat
  vertex_map : List (Nat × Nat)
  deriving DecidableEq, Repr

/-- Lookup in the `std::map<int,HEVertex>`: the descriptor stored under an
index, if present. -/
def vmap_lookup (m : List (Nat × Nat)) (idx : Nat) : Option Nat :=
  (m.find? (fun e => e.1 == idx)).map Prod.snd

/-- One `insert_point_site` call at the vertex-map level: the point-site
vertex takes the next descriptor and the next index, the pair is inserted
into `vertex_map`, and the index is returned; `aux` is the number of further
vertices the call creates (NEW vertices, apexes), which consume the
following descriptors and indices and get no map entry. -/
def insert_point_site_entry (s : VertexMapState) (aux : Nat) :
    VertexMapState × Nat × Nat :=
  (⟨s.desc_count + 1 + aux, s.index_count + 1 + aux,
      (s.index_count, s.desc_count) :: s.vertex_map⟩,
    s.index_count, s.desc_count)

/-- A sequence of `insert_point_site` calls; returns the final state and the
list of (returned index, created point-site descriptor) pairs. -/
def run_point_inserts (s : VertexMapState) : List Nat → VertexMapState × List (Nat × Nat)
  | [] => (s, [])
  | aux :: rest =>
    let step := insert_point_site_entry s aux
    let tail := run_point_inserts step.1 rest
    (tail.1, step.2 :: tail.2)

/-- Function `VoronoiDiagram::find_endpoints(idx1, idx2)`: look both indices up in
`vertex_map` (the C++ asserts both are found) and return the pair of
descriptors. -/
def find_endpoints (s : VertexMapState) (idx1 idx2 : Nat) : Option (Nat × Nat) :=
  match vmap_lookup s.vertex_map idx1, vmap_lookup s.vertex_map idx2 with
  | some d1, some d2 => some (d1, d2)
  | _, _ => none

/-- Engine state after construction: ten frame vertices hold descriptors
0..9, `reset_vertex_count()` restarts the index counter, the map is empty. -/
def vd_start_state : VertexMapState := ⟨10, 0, []⟩

/-- Map keys are always below the index counter. -/
def VMapInv (s : VertexMapState) : Prop := ∀ e ∈ s.vertex_map, e.1 < s.index_count

theorem insert_entry_inv (s : VertexMapState) (aux : Nat) (hinv : VMapInv s) :
    VMapInv (insert_point_site_entry s aux).1 := by
  intro e he
  simp only [insert_point_site_entry, List.mem_cons] at he
  rcases he with he | he
  · subst he
    simp only [insert_point_site_entry]
    omega
  · have := hinv e he
    simp only [insert_point_site_entry]
    omega

theorem vmap_lookup_run (ops : List Nat) (s : VertexMapState) (hinv : VMapInv s)
    (k d : Nat) (hk : k < s.index_count) (hl : vmap_lookup s.vertex_map k = some d) :
    vmap_lookup (run_point_inserts s ops).1.vertex_map k = some d := by
  induction ops generalizing s with
  | nil => exact hl
  | cons aux rest ih =>
    show vmap_lookup (run_point_inserts (insert_point_site_entry s aux).1 rest).1.vertex_map
        k = some d
    apply ih _ (insert_entry_inv s aux hinv)
    · simp only [insert_point_site_entry]
      omega
    · simp only [insert_point_site_entry, vmap_lookup, List.find?]
      have hne : (s.index_count == k) = false := by
        simp only [beq_eq_false_iff_ne]
        omega
      simp only [hne]
      exact hl

theorem run_outputs_lookup (ops : List Nat) (s : VertexMapState) (hinv : VMapInv s) :
    ∀ e ∈ (run_point_inserts s ops).2,
      vmap_lookup (run_point_inserts s ops).1.vertex_map e.1 = some e.2 := by
  induction ops generalizing s with
  | nil =>
    intro e he
    exact absurd he (List.not_mem_nil e)
  | cons aux rest ih =>
    intro e he
    have hme : e ∈ (insert_point_site_entry s aux).2 ::
        (run_point_inserts (insert_point_site_entry s aux).1 rest).2 := he
    show vmap_lookup (run_point_inserts (insert_point_site_entry s aux).1 rest).1.vertex_map
        e.1 = some e.2
    rcases List.mem_cons.mp hme with heq | hmem
    · subst heq
      apply vmap_lookup_run rest _ (insert_entry_inv s aux hinv)
      · simp only [insert_point_site_entry]
        omega
      · simp only [insert_point_site_entry, vmap_lookup, List.find?, beq_self_eq_true]
        rfl
    · exact ih _ (insert_entry_inv s aux hinv) e hmem

/-- C10: starting from a freshly constructed engine, every
`insert_point_site` call records its returned index in `vertex_map` keyed to
the point-site vertex it created, and for any two recorded calls,
`find_endpoints` on their returned indices yields exactly the pair of vertex
descriptors those two insertions created. -/
theorem C10_thm (ops : List Nat) (e1 e2 : Nat × Nat)
    (h1 : e1 ∈ (run_point_inserts vd_start_state ops).2)
    (h2 : e2 ∈ (run_point_inserts vd_start_state ops).2) :
    vmap_lookup (run_point_inserts vd_start_state ops).1.vertex_map e1.1 = some e1.2 ∧
      find_endpoints (run_point_inserts vd_start_state ops).1 e1.1 e2.1 =
        some (e1.2, e2.2) := by
  have hinv : VMapInv vd_start_state := by
    intro e he
    exact absurd he (List.not_mem_nil e)
  have hl1 := run_outputs_lookup ops vd_start_state hinv e1 h1
  have hl2 := run_outputs_lookup ops vd_start_state hinv e2 h2
  refine ⟨hl1, ?_⟩
  rw [find_endpoints, hl1, hl2]

/-- C10 (witness): two concrete insertions — indices 0 and 1, descriptors 10
and 11 — round-trip through `find_endpoints`. -/
theorem C10_witness :
    vmap_lookup (run_point_inserts vd_start_state [0, 0]).1.vertex_map 0 = some 10 ∧
      find_endpoints (run_point_inserts vd_start_state [0, 0]).1 0 1 = some (10, 11) :=
  C10_thm [0, 0] (0, 10) (1, 11) (by decide) (by decide)

end OVD
